import Mathlib

/-!
Shallow embedding of the stage-based task queue and worker orchestration
engine of the prm-data-enrich repository.

Database effects are modelled as pure transitions on an explicit state
(`DBState`).  The claim query (config.py, TAKE_PENDING_TASK_QUERY) is a
single transactional statement, so every concurrent execution of claim
calls is equivalent to some serial execution of atomic claim steps; we
therefore model N concurrent claims as N sequential applications of the
atomic step `take_pending_task`.  The catch-all exception boundary of
`process_task` (utils/task_worker.py) is modelled by making the function
total: a collaborator outcome is passed in as an `Except String Bool`
value (`Except.error` standing for a raised exception whose text is the
message).
-/

namespace PrmEnrich

/-- Status column of the task_queue table
(config.py, DROP_AND_CREATE_TASK_QUEUE_QUERY): pending, in_progress,
done, failed. -/
inductive Status where
  | pending
  | in_progress
  | done
  | failed
deriving DecidableEq, Repr

/-- One row of the task_queue table
(config.py, DROP_AND_CREATE_TASK_QUEUE_QUERY).  Timestamps are modelled
as natural numbers. -/
structure Task where
  id : Nat
  person_id : Nat
  task_type : String
  status : Status
  created_at : Nat
  started_at : Option Nat := none
  finished_at : Option Nat := none
  retries : Nat := 0
  last_error : Option String := none
deriving DecidableEq, Repr

/-- One row of the person_result_data table
(config.py, DROP_AND_CREATE_RESULT_TABLE_QUERY); only the columns the
queue engine and the postcheck handlers touch are modelled.  Nullable
boolean columns are Option Bool. -/
structure Person where
  person_id : Nat
  flag_prellm : Option Bool := none
  flag_llm : Option Bool := none
  valid : Option Bool := none
  flag_perp : Option Bool := none
  flag_postcheck1 : Option Bool := none
  flag_postcheck2 : Option Bool := none
  done : Option Bool := none
  flag_photos : Option Bool := none
deriving DecidableEq, Repr

/-- The database state seen by the engine: the person_result_data rows,
the task_queue rows, the next SERIAL id, and the value of NOW(). -/
structure DBState where
  persons : List Person
  tasks : List Task
  next_id : Nat
  now : Nat
deriving DecidableEq, Repr

/-- The columns RETURNING id, person_id, task_type of the claim query
(config.py, TAKE_PENDING_TASK_QUERY). -/
structure ClaimRow where
  id : Nat
  person_id : Nat
  task_type : String
deriving DecidableEq, Repr

/-- status = 'pending' filter of the claim query. -/
def isPending (t : Task) : Bool := t.status = Status.pending

/-- Accumulator step realising ORDER BY created_at ... LIMIT 1: keep the
row with the smaller created_at (the earlier row on ties). -/
def olderOf (acc : Option Task) (t : Task) : Option Task :=
  match acc with
  | none => some t
  | some b => if t.created_at < b.created_at then some t else some b

/-- The inner SELECT of TAKE_PENDING_TASK_QUERY (config.py):
the oldest row with status = 'pending'. -/
def oldestPending (ts : List Task) : Option Task :=
  (ts.filter isPending).foldl olderOf none

/-- The UPDATE part of TAKE_PENDING_TASK_QUERY: set the selected row to
in_progress with started_at = NOW(). -/
def setInProgress (ts : List Task) (tid : Nat) (now : Nat) : List Task :=
  ts.map fun u =>
    if u.id = tid then { u with status := Status.in_progress, started_at := some now } else u

/-- The whole claim statement TAKE_PENDING_TASK_QUERY (config.py),
as run by fetch_pending_task (utils/task_worker.py): atomically select
the oldest pending row, mark it in_progress with a start timestamp and
return its id/person_id/task_type; an empty result is returned as none,
not as an error. -/
def take_pending_task (s : DBState) : Option ClaimRow × DBState :=
  match oldestPending s.tasks with
  | none => (none, s)
  | some t =>
      (some ⟨t.id, t.person_id, t.task_type⟩,
        { s with tasks := setInProgress s.tasks t.id s.now })

/-- N concurrent claim calls, serialised into N atomic claim steps
(each call is one transactional statement). -/
def claimN : Nat → DBState → List (Option ClaimRow) × DBState
  | 0, s => ([], s)
  | Nat.succ n, s =>
      let r := take_pending_task s
      let rest := claimN n r.2
      (r.1 :: rest.1, rest.2)

/-- Ids of the pending rows of a task list. -/
def pendingIdsOf (ts : List Task) : List Nat := (ts.filter isPending).map Task.id

/-- Ids of the pending rows of the state. -/
def pendingIds (s : DBState) : List Nat := pendingIdsOf s.tasks

/-- Ids handed out by a list of claim results. -/
def returnedIds (rs : List (Option ClaimRow)) : List Nat :=
  rs.filterMap fun o => o.map ClaimRow.id

/- ---------------------------------------------------------------------
Queue populator (services/fill_task_queue.py).
--------------------------------------------------------------------- -/

/-- Modelled from the spec: config.TASK_TYPES is referenced by
services/fill_task_queue.py but is missing from the sources.  Section 3
of the spec fixes the registered stages and their chain order
prellm, llm, perp, postcheck1, postcheck2. -/
def TASK_TYPES : List String := ["prellm", "llm", "perp", "postcheck1", "postcheck2"]

/-- Modelled from the spec: config.TASK_RULES is referenced by
services/fill_task_queue.py but is missing from the sources.  Section
4.1 describes it as the per-stage eligibility predicate over the person
record, with each stage requiring the previous stage's completion flag
(its example: "llm" requires flag_prellm = true); the first stage has no
prerequisite. -/
def TASK_RULES (task_type : String) (p : Person) : Bool :=
  if task_type = "prellm" then true
  else if task_type = "llm" then p.flag_prellm = some true
  else if task_type = "perp" then p.flag_llm = some true
  else if task_type = "postcheck1" then p.flag_perp = some true
  else if task_type = "postcheck2" then p.flag_postcheck1 = some true
  else false

/-- Modelled from the spec: config.TASK_FLAGS is referenced by
services/fill_task_queue.py but is missing from the sources.  Section
4.1 describes it as the name of the per-stage completion flag column;
here it is modelled as the accessor of that column's value. -/
def TASK_FLAGS (task_type : String) (p : Person) : Option Bool :=
  if task_type = "prellm" then p.flag_prellm
  else if task_type = "llm" then p.flag_llm
  else if task_type = "perp" then p.flag_perp
  else if task_type = "postcheck1" then p.flag_postcheck1
  else if task_type = "postcheck2" then p.flag_postcheck2
  else none

/-- The NOT EXISTS subquery of _insert_task and _insert_tasks_bulk
(services/fill_task_queue.py): some task_queue row of this type already
exists for this person, regardless of its status. -/
def hasTaskOfType (ts : List Task) (pid : Nat) (tt : String) : Bool :=
  ts.any fun t => t.person_id = pid && t.task_type = tt

/-- The WHERE clause of the bulk insert of _insert_tasks_bulk
(services/fill_task_queue.py): eligibility condition, completion flag
IS NULL OR FALSE, and the NOT EXISTS duplicate guard. -/
def bulkGuard (tt : String) (p : Person) (ts : List Task) : Bool :=
  TASK_RULES tt p
    && (match TASK_FLAGS tt p with | none => true | some b => !b)
    && !hasTaskOfType ts p.person_id tt

/-- INSERT INTO task_queue ... SELECT person_id, task_type, 'pending':
append one pending row per selected person, with SERIAL ids and
created_at = NOW(). -/
def appendPendingRows (tt : String) (ps : List Person) (s : DBState) : DBState :=
  match ps with
  | [] => s
  | p :: rest =>
      appendPendingRows tt rest
        { s with
          tasks := s.tasks ++
            [{ id := s.next_id, person_id := p.person_id, task_type := tt,
               status := Status.pending, created_at := s.now }],
          next_id := s.next_id + 1 }

/-- TaskQueue._insert_tasks_bulk (services/fill_task_queue.py): count
the qualifying persons against the statement-start snapshot and, when
the count is positive, insert one pending row per qualifying person. -/
def insertTasksBulk (tt : String) (s : DBState) : DBState :=
  if (s.persons.filter fun p => bulkGuard tt p s.tasks).length > 0 then
    appendPendingRows tt (s.persons.filter fun p => bulkGuard tt p s.tasks) s
  else s

/-- The for loop of TaskQueue.fill_all over a list of task types. -/
def fillList : List String → DBState → DBState
  | [], s => s
  | tt :: rest, s => fillList rest (insertTasksBulk tt s)

/-- TaskQueue.fill_all (services/fill_task_queue.py): bulk insert for
every registered task type in registry order. -/
def fill_all (s : DBState) : DBState := fillList TASK_TYPES s

/-- TaskQueue._insert_task (services/fill_task_queue.py): insert a
pending row for one person when that person's row satisfies the
eligibility condition and the NOT EXISTS duplicate guard (which checks
existence of any row of that type, not its status). -/
def insert_task (s : DBState) (pid : Nat) (tt : String) : DBState :=
  appendPendingRows tt
    (s.persons.filter fun p =>
      p.person_id = pid && TASK_RULES tt p && !hasTaskOfType s.tasks pid tt)
    s

/-- TaskQueue.add_for_person (services/fill_task_queue.py): raise
ValueError before touching the table when the task type is not
registered, otherwise run _insert_task. -/
def add_for_person (s : DBState) (pid : Nat) (tt : String) : Except String DBState :=
  if TASK_TYPES.contains tt then Except.ok (insert_task s pid tt)
  else Except.error ("Неизвестный тип задачи: " ++ tt)

/- ---------------------------------------------------------------------
Worker (utils/task_worker.py).
--------------------------------------------------------------------- -/

/-- The keys of HANDLERS (utils/task_worker.py): the stages with a
registered capability. -/
def HANDLER_TYPES : List String := ["prellm", "llm", "perp", "postcheck1", "postcheck2"]

/-- NEXT_TASK (utils/task_worker.py): the fixed linear successor chain;
postcheck2 maps to None and unknown keys give None via dict.get. -/
def NEXT_TASK (t : String) : Option String :=
  if t = "prellm" then some "llm"
  else if t = "llm" then some "perp"
  else if t = "perp" then some "postcheck1"
  else if t = "postcheck1" then some "postcheck2"
  else none

/-- The Python expression (error or "Unknown error") applied to the
text bound to last_error by mark_task_status. -/
def errText (error : Option String) : String :=
  match error with
  | some e => if e = "" then "Unknown error" else e
  | none => "Unknown error"

/-- mark_task_status (utils/task_worker.py): status=True runs the
UPDATE to done with finished_at = NOW(); status=False runs the UPDATE
to failed with finished_at = NOW(), retries = retries + 1 and
last_error set. -/
def mark_task_status (s : DBState) (task_id : Nat) (ok : Bool) (error : Option String) : DBState :=
  if ok then
    { s with tasks := s.tasks.map fun t =>
        if t.id = task_id then { t with status := Status.done, finished_at := some s.now }
        else t }
  else
    { s with tasks := s.tasks.map fun t =>
        if t.id = task_id then
          { t with status := Status.failed, finished_at := some s.now,
                   retries := t.retries + 1, last_error := some (errText error) }
        else t }

/-- create_new_task (utils/task_worker.py): look up NEXT_TASK and, when
there is a successor, call TaskQueue.add_for_person for it; otherwise
do nothing. -/
def create_new_task (s : DBState) (person_id : Nat) (current_task : String) :
    Except String DBState :=
  match NEXT_TASK current_task with
  | none => Except.ok s
  | some nt => add_for_person s person_id nt

/-- run_handler (utils/task_worker.py): look up HANDLERS and raise
ValueError for an unknown task type, otherwise invoke the collaborator;
the collaborator's outcome is passed in as an Except value
(Except.error = the collaborator raised). -/
def run_handler (task_type : String) (collab : Except String Bool) : Except String Bool :=
  if HANDLER_TYPES.contains task_type then collab
  else Except.error ("Неизвестный тип задачи: " ++ task_type)

/-- process_task (utils/task_worker.py).  The try body runs
run_handler, then always marks the task done, then enqueues the next
stage only when the returned status is truthy; the except clause of the
catch-all boundary marks the task failed with the exception text.  The
function is total: no exception escapes the per-task boundary. -/
def process_task (s : DBState) (task : ClaimRow) (collab : Except String Bool) : DBState :=
  match run_handler task.task_type collab with
  | Except.error e => mark_task_status s task.id false (some e)
  | Except.ok status =>
      let s1 := mark_task_status s task.id true none
      if status then
        match create_new_task s1 task.person_id task.task_type with
        | Except.ok s2 => s2
        | Except.error e => mark_task_status s1 task.id false (some e)
      else s1

/-- What one iteration of a worker loop does with the control flow. -/
inductive LoopStep where
  | exited
  | processed
deriving DecidableEq, Repr

/-- One iteration of worker_loop (utils/task_worker.py): fetch a
pending task; when there is none, sleep 3 seconds and then return,
which terminates the loop (LoopStep.exited); otherwise run
process_task and loop on (LoopStep.processed). -/
def worker_loop_iter (s : DBState) (collab : Except String Bool) : LoopStep × DBState :=
  match take_pending_task s with
  | (none, s1) => (LoopStep.exited, s1)
  | (some task, s1) => (LoopStep.processed, process_task s1 task collab)

/- ---------------------------------------------------------------------
Postcheck handlers (handlers/postcheck1.py, handlers/postcheck2.py).
--------------------------------------------------------------------- -/

/-- fetch_person_for_postcheck1 (handlers/postcheck1.py): the person
row, provided flag_perp = TRUE. -/
def postcheck1_fetch (ps : List Person) (pid : Nat) : Option Person :=
  (ps.filter fun p => p.person_id = pid && p.flag_perp = some true).head?

/-- save_postcheck1_result (handlers/postcheck1.py): set
flag_postcheck1 to the success argument and, only on failure, also set
done = FALSE. -/
def save_postcheck1_result (ps : List Person) (pid : Nat) (success : Bool) : List Person :=
  ps.map fun p =>
    if p.person_id = pid then
      if success then { p with flag_postcheck1 := some true }
      else { p with flag_postcheck1 := some false, done := some false }
    else p

/-- run (handlers/postcheck1.py): fetch the person (early return when
absent), run the LLM check (its outcome passed in as an Except value),
save success = True whatever the check's boolean verdict was, and on a
raised exception save success = False and re-raise (the second
component carries the escaping exception text). -/
def postcheck1_run (ps : List Person) (pid : Nat) (check : Except String Bool) :
    List Person × Option String :=
  match postcheck1_fetch ps pid with
  | none => (ps, none)
  | some _ =>
      match check with
      | Except.ok _ => (save_postcheck1_result ps pid true, none)
      | Except.error e => (save_postcheck1_result ps pid false, some e)

/-- fetch_person_for_postcheck2 (handlers/postcheck2.py): the person
row, provided flag_postcheck1 = TRUE. -/
def postcheck2_fetch (ps : List Person) (pid : Nat) : Option Person :=
  (ps.filter fun p => p.person_id = pid && p.flag_postcheck1 = some true).head?

/-- save_postcheck2_result (handlers/postcheck2.py): set
flag_postcheck2 to the success argument and done = TRUE on success,
done = FALSE on failure. -/
def save_postcheck2_result (ps : List Person) (pid : Nat) (success : Bool) : List Person :=
  ps.map fun p =>
    if p.person_id = pid then
      if success then { p with flag_postcheck2 := some true, done := some true }
      else { p with flag_postcheck2 := some false, done := some false }
    else p

/-- run (handlers/postcheck2.py): fetch the person (return False when
absent), run the check, save its boolean verdict and return it; on a
raised exception save success = False and re-raise.  The second
component is the run outcome: ok verdict, or error with the escaping
exception text. -/
def postcheck2_run (ps : List Person) (pid : Nat) (check : Except String Bool) :
    List Person × Except String Bool :=
  match postcheck2_fetch ps pid with
  | none => (ps, Except.ok false)
  | some _ =>
      match check with
      | Except.ok v => (save_postcheck2_result ps pid v, Except.ok v)
      | Except.error e => (save_postcheck2_result ps pid false, Except.error e)

/- ---------------------------------------------------------------------
C2: explicit failure return from the collaborator.
--------------------------------------------------------------------- -/

/-- A claimed (in_progress) task row for the C2 and C8 evaluations. -/
def c2State : DBState :=
  { persons := [{ person_id := 5 }],
    tasks := [{ id := 1, person_id := 5, task_type := "prellm",
                status := Status.in_progress, created_at := 0, started_at := some 0 }],
    next_id := 2, now := 3 }

/-- C2: the claim says a collaborator that returns False without
raising leads to the task being marked failed with error text and an
incremented retries counter.  Evaluating process_task
(utils/task_worker.py) on a claimed task whose collaborator returns
False shows the code instead marks the task done, leaves retries at 0
and last_error empty; only the absence of a next-stage row matches the
claim.  The hard-coded True in mark_task_status(db, task_id, True) is
flagged in the source by a TODO comment. -/
theorem process_task_failure_return_marked_done :
    ((process_task c2State ⟨1, 5, "prellm"⟩ (Except.ok false)).tasks.map fun t =>
        (t.id, t.status, t.retries, t.last_error)) = [(1, Status.done, 0, none)] ∧
    (process_task c2State ⟨1, 5, "prellm"⟩ (Except.ok false)).tasks.length =
      c2State.tasks.length := by
  constructor <;> rfl

/- ---------------------------------------------------------------------
C8: the worker loop on the no-work condition.
--------------------------------------------------------------------- -/

/-- A state whose task_queue has rows but no pending row. -/
def c8State : DBState :=
  { persons := [],
    tasks := [{ id := 1, person_id := 5, task_type := "prellm",
                status := Status.done, created_at := 0 },
              { id := 2, person_id := 6, task_type := "llm",
                status := Status.failed, created_at := 0, retries := 1,
                last_error := some "boom" }],
    next_id := 3, now := 9 }

/-- A state with one pending row, for contrast with c8State. -/
def c8PendingState : DBState :=
  { persons := [],
    tasks := [{ id := 1, person_id := 5, task_type := "prellm",
                status := Status.pending, created_at := 0 }],
    next_id := 2, now := 0 }

/-- C8: the claim says every worker loop sleeps and retries on the
no-work condition and never exits there.  Evaluating one iteration of
worker_loop (utils/task_worker.py) on a queue with no pending row shows
the loop body returns (LoopStep.exited), terminating the loop; the
source marks the return with a TODO saying it should be continue. -/
theorem worker_loop_exits_on_no_work :
    (worker_loop_iter c8State (Except.ok true)).1 = LoopStep.exited ∧
    (worker_loop_iter c8PendingState (Except.ok true)).1 = LoopStep.processed := by
  constructor <;> rfl

/- ---------------------------------------------------------------------
C9: postcheck1 discards the check's verdict.
--------------------------------------------------------------------- -/

/-- C9: when the postcheck1 LLM check completes without raising, the
handler writes flag_postcheck1 = TRUE regardless of the boolean verdict
(which run discards) and leaves done unchanged; flag_postcheck1 = FALSE
together with done = FALSE is written exactly when the check raises, in
which case run re-raises. -/
theorem postcheck1_records_true_unless_raised
    (ps : List Person) (pid : Nat) (p0 : Person) (check : Except String Bool)
    (hmem : p0 ∈ ps) (hpid : p0.person_id = pid) (hperp : p0.flag_perp = some true) :
    (∀ v, check = Except.ok v →
        (postcheck1_run ps pid check).2 = none ∧
        ∃ q ∈ (postcheck1_run ps pid check).1,
          q.person_id = pid ∧ q.flag_postcheck1 = some true ∧ q.done = p0.done) ∧
    (∀ e, check = Except.error e →
        (postcheck1_run ps pid check).2 = some e ∧
        ∃ q ∈ (postcheck1_run ps pid check).1,
          q.person_id = pid ∧ q.flag_postcheck1 = some false ∧ q.done = some false) := by
  have hpf : p0 ∈ ps.filter fun p => p.person_id = pid && p.flag_perp = some true := by
    refine List.mem_filter.mpr ⟨hmem, ?_⟩
    simp [hpid, hperp]
  have hne : (ps.filter fun p => p.person_id = pid && p.flag_perp = some true) ≠ [] :=
    List.ne_nil_of_mem hpf
  obtain ⟨q0, hq0⟩ : ∃ q0, postcheck1_fetch ps pid = some q0 := by
    unfold postcheck1_fetch
    cases hh : (ps.filter fun p => p.person_id = pid && p.flag_perp = some true).head? with
    | none => exact absurd (List.head?_eq_none_iff.mp hh) hne
    | some q0 => exact ⟨q0, rfl⟩
  constructor
  · intro v hv
    subst hv
    constructor
    · simp [postcheck1_run, hq0]
    · refine ⟨{ p0 with flag_postcheck1 := some true }, ?_, hpid, rfl, rfl⟩
      simp only [postcheck1_run, hq0]
      exact List.mem_map.mpr ⟨p0, hmem, by simp [save_postcheck1_result, hpid]⟩
  · intro e he
    subst he
    constructor
    · simp [postcheck1_run, hq0]
    · refine ⟨{ p0 with flag_postcheck1 := some false, done := some false }, ?_, hpid, rfl, rfl⟩
      simp only [postcheck1_run, hq0]
      exact List.mem_map.mpr ⟨p0, hmem, by simp [save_postcheck1_result, hpid]⟩

/-- A person row ready for postcheck1, with a False check verdict. -/
def pc1Person : Person := { person_id := 7, flag_perp := some true, done := some true }

/-- Witness for postcheck1_records_true_unless_raised at a concrete
person and the interesting verdict False. -/
theorem postcheck1_records_true_unless_raised_witness :
    (pc1Person ∈ [pc1Person] ∧ pc1Person.person_id = 7 ∧ pc1Person.flag_perp = some true) ∧
    ((∀ v, (Except.ok false : Except String Bool) = Except.ok v →
        (postcheck1_run [pc1Person] 7 (Except.ok false)).2 = none ∧
        ∃ q ∈ (postcheck1_run [pc1Person] 7 (Except.ok false)).1,
          q.person_id = 7 ∧ q.flag_postcheck1 = some true ∧ q.done = pc1Person.done) ∧
    (∀ e, (Except.ok false : Except String Bool) = Except.error e →
        (postcheck1_run [pc1Person] 7 (Except.ok false)).2 = some e ∧
        ∃ q ∈ (postcheck1_run [pc1Person] 7 (Except.ok false)).1,
          q.person_id = 7 ∧ q.flag_postcheck1 = some false ∧ q.done = some false)) :=
  ⟨⟨by decide, by decide, by decide⟩,
    postcheck1_records_true_unless_raised [pc1Person] 7 pc1Person (Except.ok false)
      (by decide) (by decide) (by decide)⟩

/- ---------------------------------------------------------------------
C10: postcheck2 propagates the verdict into flag_postcheck2 and done.
--------------------------------------------------------------------- -/

/-- C10: when the postcheck2 check completes without raising, the
handler sets flag_postcheck2 to the verdict and done = TRUE exactly
when the verdict is True (FALSE otherwise), and run returns the
verdict; when the check raises, both flag_postcheck2 and done are set
to FALSE and run re-raises. -/
theorem postcheck2_saves_verdict_and_done
    (ps : List Person) (pid : Nat) (p0 : Person) (check : Except String Bool)
    (hmem : p0 ∈ ps) (hpid : p0.person_id = pid) (hpc1 : p0.flag_postcheck1 = some true) :
    (∀ v, check = Except.ok v →
        (postcheck2_run ps pid check).2 = Except.ok v ∧
        ∃ q ∈ (postcheck2_run ps pid check).1,
          q.person_id = pid ∧ q.flag_postcheck2 = some v ∧ q.done = some v) ∧
    (∀ e, check = Except.error e →
        (postcheck2_run ps pid check).2 = Except.error e ∧
        ∃ q ∈ (postcheck2_run ps pid check).1,
          q.person_id = pid ∧ q.flag_postcheck2 = some false ∧ q.done = some false) := by
  have hpf : p0 ∈ ps.filter fun p => p.person_id = pid && p.flag_postcheck1 = some true := by
    refine List.mem_filter.mpr ⟨hmem, ?_⟩
    simp [hpid, hpc1]
  have hne : (ps.filter fun p => p.person_id = pid && p.flag_postcheck1 = some true) ≠ [] :=
    List.ne_nil_of_mem hpf
  obtain ⟨q0, hq0⟩ : ∃ q0, postcheck2_fetch ps pid = some q0 := by
    unfold postcheck2_fetch
    cases hh : (ps.filter fun p => p.person_id = pid && p.flag_postcheck1 = some true).head? with
    | none => exact absurd (List.head?_eq_none_iff.mp hh) hne
    | some q0 => exact ⟨q0, rfl⟩
  constructor
  · intro v hv
    subst hv
    constructor
    · simp [postcheck2_run, hq0]
    · cases v with
      | true =>
          refine ⟨{ p0 with flag_postcheck2 := some true, done := some true }, ?_, hpid, rfl, rfl⟩
          simp only [postcheck2_run, hq0]
          exact List.mem_map.mpr ⟨p0, hmem, by simp [save_postcheck2_result, hpid]⟩
      | false =>
          refine ⟨{ p0 with flag_postcheck2 := some false, done := some false }, ?_, hpid, rfl, rfl⟩
          simp only [postcheck2_run, hq0]
          exact List.mem_map.mpr ⟨p0, hmem, by simp [save_postcheck2_result, hpid]⟩
  · intro e he
    subst he
    constructor
    · simp [postcheck2_run, hq0]
    · refine ⟨{ p0 with flag_postcheck2 := some false, done := some false }, ?_, hpid, rfl, rfl⟩
      simp only [postcheck2_run, hq0]
      exact List.mem_map.mpr ⟨p0, hmem, by simp [save_postcheck2_result, hpid]⟩

/-- A person row ready for postcheck2. -/
def pc2Person : Person := { person_id := 8, flag_postcheck1 := some true }

/-- Witness for postcheck2_saves_verdict_and_done at a concrete person
and verdict True. -/
theorem postcheck2_saves_verdict_and_done_witness :
    (pc2Person ∈ [pc2Person] ∧ pc2Person.person_id = 8 ∧
      pc2Person.flag_postcheck1 = some true) ∧
    ((∀ v, (Except.ok true : Except String Bool) = Except.ok v →
        (postcheck2_run [pc2Person] 8 (Except.ok true)).2 = Except.ok v ∧
        ∃ q ∈ (postcheck2_run [pc2Person] 8 (Except.ok true)).1,
          q.person_id = 8 ∧ q.flag_postcheck2 = some v ∧ q.done = some v) ∧
    (∀ e, (Except.ok true : Except String Bool) = Except.error e →
        (postcheck2_run [pc2Person] 8 (Except.ok true)).2 = Except.error e ∧
        ∃ q ∈ (postcheck2_run [pc2Person] 8 (Except.ok true)).1,
          q.person_id = 8 ∧ q.flag_postcheck2 = some false ∧ q.done = some false)) :=
  ⟨⟨by decide, by decide, by decide⟩,
    postcheck2_saves_verdict_and_done [pc2Person] 8 pc2Person (Except.ok true)
      (by decide) (by decide) (by decide)⟩

/- ---------------------------------------------------------------------
C3: a raising collaborator and the retry bookkeeping.
--------------------------------------------------------------------- -/

/-- The text bound to last_error is never the empty string: an empty
exception text is replaced by "Unknown error". -/
theorem errText_ne_empty (error : Option String) : errText error ≠ "" := by
  cases error with
  | none => simp only [errText]; decide
  | some e =>
      simp only [errText]
      by_cases he : e = ""
      · rw [if_pos he]; decide
      · rw [if_neg he]; exact he

/-- C3: a collaborator that raises on invocation leaves the claimed
task failed with finished_at set, retries incremented from 0 to 1 and a
non-empty last_error; no row is added (so no new task for that
person/stage), and every other row is untouched.  process_task is a
total function: the catch-all boundary means the exception never
escapes the per-task scope. -/
theorem process_task_exception_marks_failed
    (s : DBState) (task : ClaimRow) (t0 : Task) (msg : String)
    (hmem : t0 ∈ s.tasks) (hid : t0.id = task.id) (hr : t0.retries = 0)
    (hreg : HANDLER_TYPES.contains task.task_type = true) :
    (∃ u ∈ (process_task s task (Except.error msg)).tasks,
        u.id = task.id ∧ u.status = Status.failed ∧ u.retries = 1 ∧
        u.finished_at = some s.now ∧
        ∃ e, u.last_error = some e ∧ e ≠ "") ∧
    (process_task s task (Except.error msg)).tasks.length = s.tasks.length ∧
    (∀ u ∈ (process_task s task (Except.error msg)).tasks,
        u.id ≠ task.id → u ∈ s.tasks) := by
  have hin : task.task_type ∈ HANDLER_TYPES := by simpa using hreg
  have hpt : process_task s task (Except.error msg) =
      mark_task_status s task.id false (some msg) := by
    simp [process_task, run_handler, hin]
  refine ⟨?_, ?_, ?_⟩
  · rw [hpt]
    refine ⟨{ t0 with
        status := Status.failed
        finished_at := some s.now
        retries := t0.retries + 1
        last_error := some (errText (some msg)) },
      ?_, hid, rfl, by rw [hr], rfl, errText (some msg), rfl, errText_ne_empty _⟩
    simp only [mark_task_status, Bool.false_eq_true, if_false]
    exact List.mem_map.mpr ⟨t0, hmem, by rw [if_pos hid]⟩
  · rw [hpt]
    simp [mark_task_status]
  · rw [hpt]
    intro u hu hne
    simp only [mark_task_status, Bool.false_eq_true, if_false] at hu
    obtain ⟨t1, ht1, rfl⟩ := List.mem_map.mp hu
    by_cases h1 : t1.id = task.id
    · rw [if_pos h1] at hne ⊢
      exact absurd h1 (by simpa using hne)
    · rw [if_neg h1]
      exact ht1

/-- The claimed task row for the C3 witness. -/
def c3Task : Task :=
  { id := 4, person_id := 5, task_type := "perp", status := Status.in_progress,
    created_at := 0, started_at := some 1 }

/-- A claimed task for the C3 witness. -/
def c3State : DBState :=
  { persons := [{ person_id := 5 }], tasks := [c3Task], next_id := 5, now := 2 }

/-- Witness for process_task_exception_marks_failed at a concrete
claimed task and exception text. -/
theorem process_task_exception_marks_failed_witness :
    (c3Task ∈ c3State.tasks ∧ c3Task.id = 4 ∧ c3Task.retries = 0 ∧
      HANDLER_TYPES.contains "perp" = true) ∧
    ((∃ u ∈ (process_task c3State ⟨4, 5, "perp"⟩ (Except.error "boom")).tasks,
        u.id = 4 ∧ u.status = Status.failed ∧ u.retries = 1 ∧
        u.finished_at = some c3State.now ∧
        ∃ e, u.last_error = some e ∧ e ≠ "") ∧
    (process_task c3State ⟨4, 5, "perp"⟩ (Except.error "boom")).tasks.length =
      c3State.tasks.length ∧
    (∀ u ∈ (process_task c3State ⟨4, 5, "perp"⟩ (Except.error "boom")).tasks,
        u.id ≠ 4 → u ∈ c3State.tasks)) :=
  ⟨⟨by decide, rfl, rfl, by decide⟩,
    process_task_exception_marks_failed c3State ⟨4, 5, "perp"⟩ c3Task "boom"
      (by decide) rfl rfl (by decide)⟩

/- ---------------------------------------------------------------------
C7: unknown stage names are fatal only to the operation at hand.
--------------------------------------------------------------------- -/

/-- C7: an unknown stage is fatal only to its own operation.
add_for_person raises the unknown-stage ValueError before running any
INSERT (in the model the error branch leaves no successor state, and
insert_task is never entered); a claimed task whose task_type has no
registered capability is marked failed without invoking any
collaborator (process_task does not depend on the collaborator's
outcome), no row is added, and process_task stays total, so the worker
loop is not crashed. -/
theorem unknown_stage_fatal_to_operation_only
    (s : DBState) (task : ClaimRow) (t0 : Task) (pid : Nat) (tt : String)
    (hur : TASK_TYPES.contains tt = false)
    (hmem : t0 ∈ s.tasks) (hid : t0.id = task.id)
    (hbad : HANDLER_TYPES.contains task.task_type = false) :
    add_for_person s pid tt = Except.error ("Неизвестный тип задачи: " ++ tt) ∧
    (∀ c1 c2 : Except String Bool, process_task s task c1 = process_task s task c2) ∧
    (∃ u ∈ (process_task s task (Except.ok true)).tasks,
        u.id = task.id ∧ u.status = Status.failed) ∧
    (process_task s task (Except.ok true)).tasks.length = s.tasks.length := by
  have hnin : task.task_type ∉ HANDLER_TYPES := by simpa using hbad
  have hnin2 : tt ∉ TASK_TYPES := by simpa using hur
  have hpt : ∀ c : Except String Bool, process_task s task c =
      mark_task_status s task.id false
        (some ("Неизвестный тип задачи: " ++ task.task_type)) := by
    intro c
    simp [process_task, run_handler, hnin]
  refine ⟨?_, ?_, ?_, ?_⟩
  · simp [add_for_person, hnin2]
  · intro c1 c2
    rw [hpt c1, hpt c2]
  · rw [hpt]
    refine ⟨{ t0 with
        status := Status.failed
        finished_at := some s.now
        retries := t0.retries + 1
        last_error := some (errText (some ("Неизвестный тип задачи: " ++ task.task_type))) },
      ?_, hid, rfl⟩
    simp only [mark_task_status, Bool.false_eq_true, if_false]
    exact List.mem_map.mpr ⟨t0, hmem, by rw [if_pos hid]⟩
  · rw [hpt]
    simp [mark_task_status]

/-- The claimed task row of an unregistered type for the C7 witness. -/
def c7Task : Task :=
  { id := 2, person_id := 9, task_type := "photos", status := Status.in_progress,
    created_at := 0, started_at := some 0 }

/-- A claimed task of an unregistered type for the C7 witness. -/
def c7State : DBState :=
  { persons := [{ person_id := 9 }], tasks := [c7Task], next_id := 3, now := 4 }

/-- Witness for unknown_stage_fatal_to_operation_only at the
unregistered stage name "photos". -/
theorem unknown_stage_fatal_to_operation_only_witness :
    (TASK_TYPES.contains "photos" = false ∧ c7Task ∈ c7State.tasks ∧
      c7Task.id = 2 ∧ HANDLER_TYPES.contains "photos" = false) ∧
    (add_for_person c7State 9 "photos" =
        Except.error ("Неизвестный тип задачи: " ++ "photos") ∧
    (∀ c1 c2 : Except String Bool,
        process_task c7State ⟨2, 9, "photos"⟩ c1 = process_task c7State ⟨2, 9, "photos"⟩ c2) ∧
    (∃ u ∈ (process_task c7State ⟨2, 9, "photos"⟩ (Except.ok true)).tasks,
        u.id = 2 ∧ u.status = Status.failed) ∧
    (process_task c7State ⟨2, 9, "photos"⟩ (Except.ok true)).tasks.length =
      c7State.tasks.length) :=
  ⟨⟨by decide, by decide, rfl, by decide⟩,
    unknown_stage_fatal_to_operation_only c7State ⟨2, 9, "photos"⟩ c7Task 9 "photos"
      (by decide) (by decide) rfl (by decide)⟩

/- ---------------------------------------------------------------------
Populator lemmas shared by C5 and C6.
--------------------------------------------------------------------- -/

/-- The (person_id, task_type) pair of a task row. -/
def pairOf (t : Task) : Nat × String := (t.person_id, t.task_type)

/-- Number of task rows for one (person_id, task_type) pair. -/
def countPair (ts : List Task) (pid : Nat) (tt : String) : Nat :=
  (ts.map pairOf).count (pid, tt)

theorem hasTaskOfType_iff (ts : List Task) (pid : Nat) (tt : String) :
    hasTaskOfType ts pid tt = true ↔ (pid, tt) ∈ ts.map pairOf := by
  simp only [hasTaskOfType, List.any_eq_true, List.mem_map, pairOf]
  constructor
  · rintro ⟨t, ht, hb⟩
    refine ⟨t, ht, ?_⟩
    simp only [Bool.and_eq_true, decide_eq_true_eq] at hb
    simp [hb.1, hb.2]
  · rintro ⟨t, ht, hb⟩
    refine ⟨t, ht, ?_⟩
    have h1 : t.person_id = pid := congrArg Prod.fst hb
    have h2 : t.task_type = tt := congrArg Prod.snd hb
    simp [h1, h2]

theorem hasTaskOfType_append_left (ts ex : List Task) (pid : Nat) (tt : String)
    (h : hasTaskOfType ts pid tt = true) :
    hasTaskOfType (ts ++ ex) pid tt = true := by
  rw [hasTaskOfType_iff] at h ⊢
  rw [List.map_append]
  exact List.mem_append_left _ h

/-- Structure of the INSERT: the rows appended by appendPendingRows are
exactly one pending row of the given type per selected person, in
order, and the persons table is untouched. -/
theorem appendPendingRows_spec (tt : String) (ps : List Person) :
    ∀ s : DBState, ∃ ex : List Task,
      (appendPendingRows tt ps s).tasks = s.tasks ++ ex ∧
      ex.map pairOf = ps.map (fun p => (p.person_id, tt)) ∧
      (appendPendingRows tt ps s).persons = s.persons ∧
      (∀ t ∈ ex, t.status = Status.pending) := by
  induction ps with
  | nil =>
      intro s
      exact ⟨[], by simp [appendPendingRows], rfl, rfl, by simp⟩
  | cons p rest ih =>
      intro s
      obtain ⟨ex1, h1, h2, h3, h4⟩ := ih { s with tasks := s.tasks ++ [{ id := s.next_id, person_id := p.person_id, task_type := tt, status := Status.pending, created_at := s.now }], next_id := s.next_id + 1 }
      refine ⟨{ id := s.next_id, person_id := p.person_id, task_type := tt, status := Status.pending, created_at := s.now } :: ex1, ?_, ?_, ?_, ?_⟩
      · rw [appendPendingRows, h1]
        simp
      · simp [h2, pairOf]
      · rw [appendPendingRows]
        exact h3
      · intro t ht
        rcases List.mem_cons.mp ht with h | h
        · rw [h]
        · exact h4 t h

/-- A false bulk guard stays false when the task table only grows. -/
theorem bulkGuard_false_mono (tt : String) (p : Person) (ts ex : List Task)
    (h : bulkGuard tt p ts = false) : bulkGuard tt p (ts ++ ex) = false := by
  unfold bulkGuard at h ⊢
  rcases Bool.and_eq_false_iff.mp h with h1 | h2
  · rw [h1, Bool.false_and]
  · cases hh : hasTaskOfType ts p.person_id tt with
    | false => rw [hh] at h2; simp at h2
    | true =>
        rw [hasTaskOfType_append_left ts ex _ _ hh]
        simp

/-- insertTasksBulk never removes rows and never touches persons: its
result is appendPendingRows over the qualifying persons. -/
theorem insertTasksBulk_eq (tt : String) (s : DBState) :
    insertTasksBulk tt s =
      appendPendingRows tt (s.persons.filter fun p => bulkGuard tt p s.tasks) s := by
  unfold insertTasksBulk
  split
  · rfl
  · rename_i hlen
    have h0 : (s.persons.filter fun p => bulkGuard tt p s.tasks) = [] :=
      List.length_eq_zero.mp (Nat.le_zero.mp (Nat.not_lt.mp hlen))
    rw [h0]
    rfl

/-- After insertTasksBulk for a type, no person of the state still
satisfies that type's bulk guard. -/
theorem insertTasksBulk_kills_guard (tt : String) (s : DBState) :
    ∀ p ∈ s.persons, bulkGuard tt p (insertTasksBulk tt s).tasks = false := by
  intro p hp
  rw [insertTasksBulk_eq]
  obtain ⟨ex, h1, h2, _, _⟩ :=
    appendPendingRows_spec tt (s.persons.filter fun q => bulkGuard tt q s.tasks) s
  rw [h1]
  cases hg : bulkGuard tt p s.tasks with
  | false => exact bulkGuard_false_mono tt p s.tasks ex hg
  | true =>
      have hpf : p ∈ s.persons.filter fun q => bulkGuard tt q s.tasks :=
        List.mem_filter.mpr ⟨hp, hg⟩
      have hpair : (p.person_id, tt) ∈ ex.map pairOf := by
        rw [h2]
        exact List.mem_map.mpr ⟨p, hpf, rfl⟩
      have hhas : hasTaskOfType (s.tasks ++ ex) p.person_id tt = true := by
        rw [hasTaskOfType_iff, List.map_append]
        exact List.mem_append_right _ hpair
      unfold bulkGuard
      rw [hhas]
      simp

/-- fillList only appends task rows and never touches persons. -/
theorem fillList_grows (L : List String) :
    ∀ s : DBState, ∃ ex : List Task,
      (fillList L s).tasks = s.tasks ++ ex ∧ (fillList L s).persons = s.persons := by
  induction L with
  | nil => intro s; exact ⟨[], by simp [fillList], rfl⟩
  | cons tt rest ih =>
      intro s
      obtain ⟨ex1, h1, h2⟩ := ih (insertTasksBulk tt s)
      obtain ⟨ex0, g1, _, g3, _⟩ :=
        (insertTasksBulk_eq tt s) ▸
          appendPendingRows_spec tt (s.persons.filter fun p => bulkGuard tt p s.tasks) s
      refine ⟨ex0 ++ ex1, ?_, ?_⟩
      · rw [fillList, h1, g1, List.append_assoc]
      · rw [fillList, h2, g3]

/-- After fillList over a list of types, the bulk guard of every listed
type fails for every person. -/
theorem fillList_kills_guards (L : List String) :
    ∀ s : DBState, ∀ tt ∈ L, ∀ p ∈ s.persons,
      bulkGuard tt p (fillList L s).tasks = false := by
  induction L with
  | nil => intro s tt h; exact absurd h (List.not_mem_nil tt)
  | cons t0 rest ih =>
      intro s tt htt p hp
      rcases List.mem_cons.mp htt with heq | hmem
      · subst heq
        have hkill := insertTasksBulk_kills_guard tt s p hp
        obtain ⟨ex, h1, _⟩ := fillList_grows rest (insertTasksBulk tt s)
        rw [fillList, h1]
        exact bulkGuard_false_mono tt p _ ex hkill
      · rw [fillList]
        have hp2 : p ∈ (insertTasksBulk t0 s).persons := by
          obtain ⟨_, _, _, g3, _⟩ :=
            (insertTasksBulk_eq t0 s) ▸
              appendPendingRows_spec t0 (s.persons.filter fun q => bulkGuard t0 q s.tasks) s
          rw [g3]
          exact hp
        exact ih (insertTasksBulk t0 s) tt hmem p hp2

/-- A bulk insert over a state where the guard fails for every person
is the identity. -/
theorem insertTasksBulk_id (tt : String) (s : DBState)
    (h : ∀ p ∈ s.persons, bulkGuard tt p s.tasks = false) :
    insertTasksBulk tt s = s := by
  rw [insertTasksBulk_eq]
  have h0 : (s.persons.filter fun p => bulkGuard tt p s.tasks) = [] :=
    List.filter_eq_nil_iff.mpr (by intro p hp; simp [h p hp])
  rw [h0]
  rfl

/-- fillList over a state where every listed guard fails for every
person is the identity. -/
theorem fillList_id (L : List String) :
    ∀ s : DBState, (∀ tt ∈ L, ∀ p ∈ s.persons, bulkGuard tt p s.tasks = false) →
      fillList L s = s := by
  induction L with
  | nil => intro s _; rfl
  | cons t0 rest ih =>
      intro s h
      have h0 : insertTasksBulk t0 s = s :=
        insertTasksBulk_id t0 s (h t0 (List.mem_cons_self t0 rest))
      rw [fillList, h0]
      exact ih s fun tt htt p hp => h tt (List.mem_cons_of_mem t0 htt) p hp

/- ---------------------------------------------------------------------
C5: bulk fill is idempotent.
--------------------------------------------------------------------- -/

/-- C5: running fill_all twice with no intervening state change inserts
zero additional rows for every stage of the registry: the second run
returns the state unchanged. -/
theorem fill_all_idempotent (s : DBState) : fill_all (fill_all s) = fill_all s := by
  unfold fill_all
  apply fillList_id
  intro tt htt p hp
  have hp0 : p ∈ s.persons := by
    obtain ⟨_, _, h2⟩ := fillList_grows TASK_TYPES s
    rw [h2] at hp
    exact hp
  exact fillList_kills_guards TASK_TYPES s tt htt p hp0

/- ---------------------------------------------------------------------
C6: the existence guard ignores status.
--------------------------------------------------------------------- -/

theorem countPair_append (ts ex : List Task) (pid : Nat) (tt : String) :
    countPair (ts ++ ex) pid tt = countPair ts pid tt + countPair ex pid tt := by
  unfold countPair
  rw [List.map_append, List.count_append]

/-- One bulk insert never adds a row for a (person, type) pair that
already has a row of that type, whatever the inserted type is. -/
theorem insertTasksBulk_no_reinsert (tt' tt : String) (pid : Nat) (s : DBState)
    (h : hasTaskOfType s.tasks pid tt = true) :
    countPair (insertTasksBulk tt' s).tasks pid tt = countPair s.tasks pid tt ∧
    hasTaskOfType (insertTasksBulk tt' s).tasks pid tt = true := by
  rw [insertTasksBulk_eq]
  obtain ⟨ex, h1, h2, _, _⟩ :=
    appendPendingRows_spec tt' (s.persons.filter fun p => bulkGuard tt' p s.tasks) s
  rw [h1]
  refine ⟨?_, hasTaskOfType_append_left _ _ _ _ h⟩
  rw [countPair_append]
  have hzero : countPair ex pid tt = 0 := by
    unfold countPair
    rw [List.count_eq_zero]
    intro hmem
    rw [h2] at hmem
    obtain ⟨p, hp, hpair⟩ := List.mem_map.mp hmem
    have hppid : p.person_id = pid := congrArg Prod.fst hpair
    have htteq : tt' = tt := congrArg Prod.snd hpair
    have hg := (List.mem_filter.mp hp).2
    simp only [bulkGuard, Bool.and_eq_true, Bool.not_eq_true'] at hg
    rw [htteq, hppid, h] at hg
    exact Bool.true_eq_false.mp hg.2
  rw [hzero]
  rfl

/-- The bulk insert loop never adds a row for a pair that already has a
row of that type. -/
theorem fillList_no_reinsert (L : List String) :
    ∀ (s : DBState) (pid : Nat) (tt : String), hasTaskOfType s.tasks pid tt = true →
      countPair (fillList L s).tasks pid tt = countPair s.tasks pid tt := by
  induction L with
  | nil => intro s pid tt _; rfl
  | cons t0 rest ih =>
      intro s pid tt h
      obtain ⟨hc, hh⟩ := insertTasksBulk_no_reinsert t0 tt pid s h
      rw [fillList, ih _ pid tt hh, hc]

/-- C6: when any task_queue row of a type exists for a person —
whatever its status, failed and done included — neither add_for_person
nor bulk fill inserts another row for that (person, type) pair:
add_for_person returns the state unchanged, and fill_all leaves the
pair's row count unchanged. -/
theorem existence_guard_blocks_reinsert (s : DBState) (pid : Nat) (tt : String)
    (h : hasTaskOfType s.tasks pid tt = true) :
    (∀ s', add_for_person s pid tt = Except.ok s' → s' = s) ∧
    countPair (fill_all s).tasks pid tt = countPair s.tasks pid tt := by
  constructor
  · intro s' hs'
    have hins : insert_task s pid tt = s := by
      have h0 : (s.persons.filter fun p =>
          p.person_id = pid && TASK_RULES tt p && !hasTaskOfType s.tasks pid tt) = [] := by
        apply List.filter_eq_nil_iff.mpr
        intro p hp
        simp [h]
      rw [insert_task, h0]
      rfl
    unfold add_for_person at hs'
    split at hs'
    · rw [← Except.ok.inj hs', hins]
    · exact absurd hs' (by simp)
  · exact fillList_no_reinsert TASK_TYPES s pid tt h

/-- The existing failed row for the C6 witness. -/
def c6Task : Task :=
  { id := 1, person_id := 3, task_type := "perp", status := Status.failed,
    created_at := 0, finished_at := some 1, retries := 1, last_error := some "boom" }

/-- A state whose person 3 is eligible for perp but already has a
failed perp row. -/
def c6State : DBState :=
  { persons := [{ person_id := 3, flag_llm := some true }],
    tasks := [c6Task], next_id := 2, now := 5 }

/-- Witness for existence_guard_blocks_reinsert: a failed perp row
blocks re-insertion even though the person is perp-eligible. -/
theorem existence_guard_blocks_reinsert_witness :
    (hasTaskOfType c6State.tasks 3 "perp" = true) ∧
    ((∀ s', add_for_person c6State 3 "perp" = Except.ok s' → s' = c6State) ∧
      countPair (fill_all c6State).tasks 3 "perp" = countPair c6State.tasks 3 "perp") :=
  ⟨by decide, existence_guard_blocks_reinsert c6State 3 "perp" (by decide)⟩

/- ---------------------------------------------------------------------
C4: success marks done and advances the chain.
--------------------------------------------------------------------- -/

/-- Every successor named by NEXT_TASK is a registered task type. -/
theorem NEXT_TASK_registered (t nt : String) (h : NEXT_TASK t = some nt) :
    TASK_TYPES.contains nt = true := by
  unfold NEXT_TASK at h
  split_ifs at h <;> cases h <;> decide

theorem mark_task_status_persons (s : DBState) (tid : Nat) (ok : Bool) (err : Option String) :
    (mark_task_status s tid ok err).persons = s.persons := by
  unfold mark_task_status
  split <;> rfl

theorem mark_task_status_pairs (s : DBState) (tid : Nat) (ok : Bool) (err : Option String) :
    (mark_task_status s tid ok err).tasks.map pairOf = s.tasks.map pairOf := by
  unfold mark_task_status
  split <;>
    · rw [List.map_map]
      refine List.map_congr_left ?_
      intro t _
      by_cases h : t.id = tid <;> simp [pairOf, h]

theorem mark_task_status_length (s : DBState) (tid : Nat) (ok : Bool) (err : Option String) :
    (mark_task_status s tid ok err).tasks.length = s.tasks.length := by
  unfold mark_task_status
  split <;> simp

theorem countPair_mark (s : DBState) (tid : Nat) (ok : Bool) (err : Option String)
    (pid : Nat) (tt : String) :
    countPair (mark_task_status s tid ok err).tasks pid tt = countPair s.tasks pid tt := by
  unfold countPair
  rw [mark_task_status_pairs]

theorem hasTaskOfType_mark (s : DBState) (tid : Nat) (ok : Bool) (err : Option String)
    (pid : Nat) (tt : String) :
    hasTaskOfType (mark_task_status s tid ok err).tasks pid tt =
      hasTaskOfType s.tasks pid tt := by
  have hiff : hasTaskOfType (mark_task_status s tid ok err).tasks pid tt = true ↔
      hasTaskOfType s.tasks pid tt = true := by
    rw [hasTaskOfType_iff, hasTaskOfType_iff, mark_task_status_pairs]
  cases hb : hasTaskOfType s.tasks pid tt with
  | true => exact hiff.mpr hb
  | false =>
      cases hc : hasTaskOfType (mark_task_status s tid ok err).tasks pid tt with
      | true => rw [hb] at hiff; exact (hiff.mp hc).symm
      | false => rfl

/-- A filter whose predicate pins the person id keeps exactly one row
when the person ids are distinct and a matching row exists. -/
theorem filter_unique_person (ps : List Person) (pred : Person → Bool) (p : Person) (pid : Nat)
    (hup : (ps.map Person.person_id).Nodup)
    (hall : ∀ q, pred q = true → q.person_id = pid)
    (hp : p ∈ ps) (hpred : pred p = true) :
    (ps.filter pred).length = 1 := by
  induction ps with
  | nil => cases hp
  | cons a rest ih =>
      rw [List.map_cons, List.nodup_cons] at hup
      by_cases ha : pred a = true
      · rw [List.filter_cons_of_pos ha]
        have hrest : rest.filter pred = [] := by
          apply List.filter_eq_nil_iff.mpr
          intro q hq hqp
          have h1 : q.person_id = pid := hall q hqp
          have h2 : a.person_id = pid := hall a ha
          exact hup.1 (h2 ▸ h1 ▸ List.mem_map_of_mem Person.person_id hq)
        rw [hrest]
        rfl
      · rw [List.filter_cons_of_neg ha]
        rcases List.mem_cons.mp hp with heq | hp2
        · exact absurd (heq ▸ hpred) ha
        · exact ih hup.2 hp2

/-- C4: when the collaborator of a claimed task returns success, the
worker marks the task done (finished_at = NOW()) and, when the current
stage has a successor in the fixed chain, enqueues exactly one pending
task of the successor stage for that person (given the person is
eligible and has no row of that type yet); when the current stage is
terminal (NEXT_TASK = none, i.e. postcheck2), no row is added. -/
theorem success_marks_done_and_advances
    (s : DBState) (task : ClaimRow) (t0 : Task)
    (hmem : t0 ∈ s.tasks) (hid : t0.id = task.id)
    (hreg : HANDLER_TYPES.contains task.task_type = true)
    (hup : (s.persons.map Person.person_id).Nodup) :
    (∃ u ∈ (process_task s task (Except.ok true)).tasks,
        u.id = task.id ∧ u.status = Status.done ∧ u.finished_at = some s.now) ∧
    (∀ nt, NEXT_TASK task.task_type = some nt →
        ∀ p ∈ s.persons, p.person_id = task.person_id → TASK_RULES nt p = true →
          hasTaskOfType s.tasks task.person_id nt = false →
          countPair (process_task s task (Except.ok true)).tasks task.person_id nt = 1 ∧
          ∃ r ∈ (process_task s task (Except.ok true)).tasks,
            r.person_id = task.person_id ∧ r.task_type = nt ∧ r.status = Status.pending) ∧
    (NEXT_TASK task.task_type = none →
        (process_task s task (Except.ok true)).tasks.length = s.tasks.length) := by
  have hin : task.task_type ∈ HANDLER_TYPES := by simpa using hreg
  have hdone_mem : ({ t0 with status := Status.done, finished_at := some s.now } : Task) ∈
      (mark_task_status s task.id true none).tasks := by
    unfold mark_task_status
    rw [if_pos rfl]
    exact List.mem_map.mpr ⟨t0, hmem, by rw [if_pos hid]⟩
  refine ⟨?_, ?_, ?_⟩
  · cases hnt : NEXT_TASK task.task_type with
    | none =>
        have hred : process_task s task (Except.ok true) =
            mark_task_status s task.id true none := by
          simp [process_task, run_handler, hin, create_new_task, hnt]
        rw [hred]
        exact ⟨_, hdone_mem, hid, rfl, rfl⟩
    | some nt =>
        have hcin : nt ∈ TASK_TYPES := by simpa using NEXT_TASK_registered _ _ hnt
        have hred : process_task s task (Except.ok true) =
            insert_task (mark_task_status s task.id true none) task.person_id nt := by
          simp [process_task, run_handler, hin, create_new_task, hnt, add_for_person, hcin]
        rw [hred]
        obtain ⟨ex, h1, _, _, _⟩ := appendPendingRows_spec nt
          ((mark_task_status s task.id true none).persons.filter fun q =>
            q.person_id = task.person_id && TASK_RULES nt q &&
              !hasTaskOfType (mark_task_status s task.id true none).tasks task.person_id nt)
          (mark_task_status s task.id true none)
        unfold insert_task
        rw [h1]
        exact ⟨_, List.mem_append_left ex hdone_mem, hid, rfl, rfl⟩
  · intro nt hnt p hp hpid hrule hno
    have hcin : nt ∈ TASK_TYPES := by simpa using NEXT_TASK_registered _ _ hnt
    have hred : process_task s task (Except.ok true) =
        insert_task (mark_task_status s task.id true none) task.person_id nt := by
      simp [process_task, run_handler, hin, create_new_task, hnt, add_for_person, hcin]
    have hno1 : hasTaskOfType (mark_task_status s task.id true none).tasks
        task.person_id nt = false := by
      rw [hasTaskOfType_mark]
      exact hno
    obtain ⟨ex, h1, h2, _, h4⟩ := appendPendingRows_spec nt
      ((mark_task_status s task.id true none).persons.filter fun q =>
        q.person_id = task.person_id && TASK_RULES nt q &&
          !hasTaskOfType (mark_task_status s task.id true none).tasks task.person_id nt)
      (mark_task_status s task.id true none)
    have hmatch : ((mark_task_status s task.id true none).persons.filter fun q =>
        q.person_id = task.person_id && TASK_RULES nt q &&
          !hasTaskOfType (mark_task_status s task.id true none).tasks task.person_id nt).length
        = 1 := by
      rw [mark_task_status_persons]
      refine filter_unique_person s.persons _ p task.person_id hup ?_ hp ?_
      · intro q hq
        simp only [Bool.and_eq_true, decide_eq_true_eq] at hq
        exact hq.1.1
      · simp [hpid, hrule, hno1]
    have hexlen : ex.length = 1 := by
      have := congrArg List.length h2
      simpa [hmatch] using this
    obtain ⟨r, hr⟩ := List.length_eq_one.mp hexlen
    have hrpair : pairOf r = (task.person_id, nt) := by
      have hmm : pairOf r ∈ ex.map pairOf :=
        List.mem_map_of_mem pairOf (hr ▸ List.mem_singleton_self r)
      rw [h2] at hmm
      obtain ⟨q, hq, hqe⟩ := List.mem_map.mp hmm
      have hqpid : q.person_id = task.person_id := by
        have := (List.mem_filter.mp hq).2
        simp only [Bool.and_eq_true, decide_eq_true_eq] at this
        exact this.1.1
      rw [← hqe, hqpid]
    constructor
    · rw [hred]
      unfold insert_task
      rw [h1, countPair_append, countPair_mark]
      have hc0 : countPair s.tasks task.person_id nt = 0 := by
        unfold countPair
        rw [List.count_eq_zero]
        intro hmm
        rw [← hasTaskOfType_iff] at hmm
        rw [hmm] at hno
        exact Bool.true_eq_false.mp hno
      have hc1 : countPair ex task.person_id nt = 1 := by
        unfold countPair
        rw [hr]
        simp [hrpair]
      rw [hc0, hc1]
    · refine ⟨r, ?_, congrArg Prod.fst hrpair, congrArg Prod.snd hrpair,
        h4 r (hr ▸ List.mem_singleton_self r)⟩
      rw [hred]
      unfold insert_task
      rw [h1]
      exact List.mem_append_right _ (hr ▸ List.mem_singleton_self r)
  · intro hnt
    have hred : process_task s task (Except.ok true) =
        mark_task_status s task.id true none := by
      simp [process_task, run_handler, hin, create_new_task, hnt]
    rw [hred, mark_task_status_length]

/-- The claimed prellm task row for the C4 witness. -/
def c4Task : Task :=
  { id := 1, person_id := 7, task_type := "prellm", status := Status.in_progress,
    created_at := 0, started_at := some 1 }

/-- A state where person 7 has a claimed prellm task and is eligible
for llm. -/
def c4State : DBState :=
  { persons := [{ person_id := 7, flag_prellm := some true }],
    tasks := [c4Task], next_id := 2, now := 6 }

/-- Witness for success_marks_done_and_advances on the concrete prellm
success of person 7. -/
theorem success_marks_done_and_advances_witness :
    (c4Task ∈ c4State.tasks ∧ c4Task.id = 1 ∧
      HANDLER_TYPES.contains "prellm" = true ∧
      (c4State.persons.map Person.person_id).Nodup) ∧
    ((∃ u ∈ (process_task c4State ⟨1, 7, "prellm"⟩ (Except.ok true)).tasks,
        u.id = 1 ∧ u.status = Status.done ∧ u.finished_at = some c4State.now) ∧
    (∀ nt, NEXT_TASK "prellm" = some nt →
        ∀ p ∈ c4State.persons, p.person_id = 7 → TASK_RULES nt p = true →
          hasTaskOfType c4State.tasks 7 nt = false →
          countPair (process_task c4State ⟨1, 7, "prellm"⟩ (Except.ok true)).tasks 7 nt = 1 ∧
          ∃ r ∈ (process_task c4State ⟨1, 7, "prellm"⟩ (Except.ok true)).tasks,
            r.person_id = 7 ∧ r.task_type = nt ∧ r.status = Status.pending) ∧
    (NEXT_TASK "prellm" = none →
        (process_task c4State ⟨1, 7, "prellm"⟩ (Except.ok true)).tasks.length =
          c4State.tasks.length)) :=
  ⟨⟨by decide, rfl, by decide, by decide⟩,
    success_marks_done_and_advances c4State ⟨1, 7, "prellm"⟩ c4Task
      (by decide) rfl (by decide) (by decide)⟩

/- ---------------------------------------------------------------------
C1: the claim protocol never hands a row to two callers.
--------------------------------------------------------------------- -/

/-- Folding olderOf from a some accumulator yields an element of the
accumulator-or-list that minimises created_at. -/
theorem foldl_olderOf_some (l : List Task) :
    ∀ b : Task, ∃ c : Task, l.foldl olderOf (some b) = some c ∧ (c = b ∨ c ∈ l) ∧
      c.created_at ≤ b.created_at ∧ ∀ u ∈ l, c.created_at ≤ u.created_at := by
  induction l with
  | nil =>
      intro b
      exact ⟨b, rfl, Or.inl rfl, le_refl _, by intro u hu; cases hu⟩
  | cons t rest ih =>
      intro b
      rw [List.foldl_cons]
      by_cases h : t.created_at < b.created_at
      · obtain ⟨c, h1, h2, h3, h4⟩ := ih t
        rw [show olderOf (some b) t = some t from by simp [olderOf, h]]
        refine ⟨c, h1, ?_, ?_, ?_⟩
        · rcases h2 with rfl | hc
          · exact Or.inr (List.mem_cons_self _ _)
          · exact Or.inr (List.mem_cons_of_mem _ hc)
        · exact le_of_lt (lt_of_le_of_lt h3 h)
        · intro u hu
          rcases List.mem_cons.mp hu with rfl | hu2
          · exact h3
          · exact h4 u hu2
      · obtain ⟨c, h1, h2, h3, h4⟩ := ih b
        rw [show olderOf (some b) t = some b from by simp [olderOf, h]]
        refine ⟨c, h1, ?_, h3, ?_⟩
        · rcases h2 with rfl | hc
          · exact Or.inl rfl
          · exact Or.inr (List.mem_cons_of_mem _ hc)
        · intro u hu
          rcases List.mem_cons.mp hu with rfl | hu2
          · exact le_trans h3 (Nat.not_lt.mp h)
          · exact h4 u hu2

/-- ORDER BY created_at ... LIMIT 1 semantics of oldestPending: none
exactly on an empty pending set, otherwise a pending row of minimal
created_at. -/
theorem oldestPending_spec (ts : List Task) :
    (oldestPending ts = none → ts.filter isPending = []) ∧
    (∀ t, oldestPending ts = some t →
      t ∈ ts.filter isPending ∧ ∀ u ∈ ts.filter isPending, t.created_at ≤ u.created_at) := by
  unfold oldestPending
  cases hl : ts.filter isPending with
  | nil =>
      refine ⟨fun _ => rfl, ?_⟩
      intro t ht
      cases ht
  | cons a l =>
      rw [List.foldl_cons]
      obtain ⟨c, h1, h2, h3, h4⟩ := foldl_olderOf_some l a
      rw [show olderOf none a = some a from rfl, h1]
      constructor
      · intro h; cases h
      · intro t ht
        have hct : c = t := Option.some.inj ht
        subst hct
        constructor
        · rcases h2 with rfl | hc
          · exact List.mem_cons_self _ _
          · exact List.mem_cons_of_mem _ hc
        · intro u hu
          rcases List.mem_cons.mp hu with rfl | hu2
          · exact h3
          · exact h4 u hu2

theorem setInProgress_cons (u : Task) (rest : List Task) (tid now : Nat) :
    setInProgress (u :: rest) tid now =
      (if u.id = tid then
        { u with status := Status.in_progress, started_at := some now } else u)
        :: setInProgress rest tid now := rfl

theorem setInProgress_eq_of_not_mem (ts : List Task) (tid now : Nat) :
    tid ∉ ts.map Task.id → setInProgress ts tid now = ts := by
  induction ts with
  | nil => intro _; rfl
  | cons u rest ih =>
      intro h
      rw [List.map_cons, List.mem_cons] at h
      push_neg at h
      rw [setInProgress_cons, if_neg fun hh => h.1 hh.symm, ih h.2]

theorem setInProgress_map_id (ts : List Task) (tid now : Nat) :
    (setInProgress ts tid now).map Task.id = ts.map Task.id := by
  unfold setInProgress
  rw [List.map_map]
  refine List.map_congr_left ?_
  intro t _
  by_cases h : t.id = tid <;> simp [Function.comp, h]

/-- Pending ids are a sublist of all ids. -/
theorem pendingIdsOf_sublist (ts : List Task) :
    List.Sublist (pendingIdsOf ts) (ts.map Task.id) :=
  (List.filter_sublist ts).map Task.id

/-- Claiming one row removes exactly its id from the pending ids. -/
theorem pendingIdsOf_setInProgress (ts : List Task) (tid now : Nat) :
    (ts.map Task.id).Nodup →
      pendingIdsOf (setInProgress ts tid now) = (pendingIdsOf ts).erase tid := by
  induction ts with
  | nil => intro _; rfl
  | cons u rest ih =>
      intro hnd
      rw [List.map_cons, List.nodup_cons] at hnd
      rw [setInProgress_cons]
      by_cases hu : u.id = tid
      · rw [if_pos hu, setInProgress_eq_of_not_mem rest tid now (hu ▸ hnd.1)]
        by_cases hp : isPending u = true
        · unfold pendingIdsOf
          rw [List.filter_cons_of_pos hp,
            List.filter_cons_of_neg (by simp [isPending]), List.map_cons, hu,
            List.erase_cons_head]
        · unfold pendingIdsOf
          rw [List.filter_cons_of_neg hp, List.filter_cons_of_neg (by simp [isPending])]
          rw [List.erase_of_not_mem]
          intro hmm
          exact hnd.1 (hu ▸ (pendingIdsOf_sublist rest).subset hmm)
      · rw [if_neg hu]
        by_cases hp : isPending u = true
        · unfold pendingIdsOf
          rw [List.filter_cons_of_pos hp, List.filter_cons_of_pos hp, List.map_cons,
            List.map_cons, List.erase_cons, if_neg (by simpa using hu)]
          exact congrArg (u.id :: ·) (ih hnd.2)
        · unfold pendingIdsOf
          rw [List.filter_cons_of_neg hp, List.filter_cons_of_neg hp]
          exact ih hnd.2

/-- A claim that returns the empty result leaves the state unchanged,
and happens exactly when no pending row exists. -/
theorem take_pending_task_none_spec (s : DBState)
    (h : (take_pending_task s).1 = none) :
    pendingIds s = [] ∧ (take_pending_task s).2 = s := by
  unfold take_pending_task at h ⊢
  cases ho : oldestPending s.tasks with
  | some t => rw [ho] at h; simp at h
  | none =>
      refine ⟨?_, rfl⟩
      have hf := (oldestPending_spec s.tasks).1 ho
      unfold pendingIds pendingIdsOf
      rw [hf]
      rfl

/-- A successful claim returns a pending id, removes exactly that id
from the pending set, and preserves the id column. -/
theorem take_pending_task_some_spec (s : DBState) (r : ClaimRow)
    (hnd : (s.tasks.map Task.id).Nodup)
    (h : (take_pending_task s).1 = some r) :
    r.id ∈ pendingIds s ∧
    pendingIds (take_pending_task s).2 = (pendingIds s).erase r.id ∧
    (take_pending_task s).2.tasks.map Task.id = s.tasks.map Task.id := by
  unfold take_pending_task at h ⊢
  cases ho : oldestPending s.tasks with
  | none => rw [ho] at h; simp at h
  | some t =>
      rw [ho] at h
      have hrt : r = ⟨t.id, t.person_id, t.task_type⟩ := (Option.some.inj h).symm
      subst hrt
      have hspec := (oldestPending_spec s.tasks).2 t ho
      refine ⟨List.mem_map_of_mem Task.id hspec.1, ?_, ?_⟩
      · exact pendingIdsOf_setInProgress s.tasks t.id s.now hnd
      · exact setInProgress_map_id s.tasks t.id s.now

theorem claimN_succ (n : Nat) (s : DBState) :
    claimN (n + 1) s = ((take_pending_task s).1 :: (claimN n (take_pending_task s).2).1,
      (claimN n (take_pending_task s).2).2) := rfl

/-- Serial invariant of N claims: ids are preserved, the handed-out
ids together with the still-pending ids permute the initial pending
ids, and exactly min N M claims succeed. -/
theorem claimN_spec (N : Nat) :
    ∀ s : DBState, (s.tasks.map Task.id).Nodup →
      ((claimN N s).2.tasks.map Task.id = s.tasks.map Task.id) ∧
      (returnedIds (claimN N s).1 ++ pendingIds (claimN N s).2).Perm (pendingIds s) ∧
      (returnedIds (claimN N s).1).length = min N (pendingIds s).length ∧
      (claimN N s).1.length = N := by
  induction N with
  | zero =>
      intro s _
      exact ⟨rfl, by simp [claimN, returnedIds], by simp [claimN, returnedIds], rfl⟩
  | succ n ih =>
      intro s hnd
      cases hr : (take_pending_task s).1 with
      | none =>
          obtain ⟨hpe, hs2⟩ := take_pending_task_none_spec s hr
          obtain ⟨ih1, ih2, ih3, ih4⟩ := ih s hnd
          rw [claimN_succ, hr, hs2]
          refine ⟨ih1, ?_, ?_, ?_⟩
          · rw [show returnedIds (none :: (claimN n s).1) = returnedIds (claimN n s).1
              from rfl]
            exact ih2
          · rw [show returnedIds (none :: (claimN n s).1) = returnedIds (claimN n s).1
              from rfl]
            rw [ih3, hpe]
            simp
          · rw [List.length_cons, ih4]
      | some cr =>
          obtain ⟨hmem, hpe, hids⟩ := take_pending_task_some_spec s cr hnd hr
          have hnd2 : ((take_pending_task s).2.tasks.map Task.id).Nodup := by
            rw [hids]; exact hnd
          obtain ⟨ih1, ih2, ih3, ih4⟩ := ih (take_pending_task s).2 hnd2
          rw [claimN_succ, hr]
          have hpos : 0 < (pendingIds s).length :=
            List.length_pos.mpr (List.ne_nil_of_mem hmem)
          refine ⟨by rw [ih1, hids], ?_, ?_, ?_⟩
          · rw [show returnedIds (some cr :: (claimN n (take_pending_task s).2).1) =
                cr.id :: returnedIds (claimN n (take_pending_task s).2).1 from rfl,
              List.cons_append]
            refine (ih2.cons cr.id).trans ?_
            rw [hpe]
            exact (List.perm_cons_erase hmem).symm
          · rw [show returnedIds (some cr :: (claimN n (take_pending_task s).2).1) =
                cr.id :: returnedIds (claimN n (take_pending_task s).2).1 from rfl,
              List.length_cons, ih3, hpe, List.length_erase_of_mem hmem]
            omega
          · rw [List.length_cons, ih4]

/-- Nones and handed-out ids partition the result list of claimN. -/
theorem count_none_add (rs : List (Option ClaimRow)) :
    rs.count none + (returnedIds rs).length = rs.length := by
  induction rs with
  | nil => rfl
  | cons o rest ih =>
      cases o with
      | none =>
          rw [List.count_cons_self,
            show returnedIds (none :: rest) = returnedIds rest from rfl, List.length_cons]
          omega
      | some cr =>
          rw [List.count_cons_of_ne (by simp),
            show returnedIds (some cr :: rest) = cr.id :: returnedIds rest from rfl,
            List.length_cons, List.length_cons]
          omega

/-- C1: for N concurrent claim calls (serialised atomic transactional
statements) against M < N pending rows with distinct ids, the
handed-out ids are a permutation of the pending ids — each pending row
goes to exactly one caller — with no id handed out twice, and the
remaining N - M calls observe the empty no-work result; moreover a
successful claim returns the id/person_id/task_type of an oldest
pending row and leaves that row in_progress with started_at = NOW(). -/
theorem no_double_claim (s : DBState) (N : Nat)
    (hnd : (s.tasks.map Task.id).Nodup)
    (hN : (pendingIds s).length < N) :
    (returnedIds (claimN N s).1).Perm (pendingIds s) ∧
    (returnedIds (claimN N s).1).Nodup ∧
    (claimN N s).1.count none = N - (pendingIds s).length ∧
    (∀ r, (take_pending_task s).1 = some r →
      ∃ t ∈ s.tasks, t.id = r.id ∧ t.person_id = r.person_id ∧ t.task_type = r.task_type ∧
        t.status = Status.pending ∧
        (∀ u ∈ s.tasks, u.status = Status.pending → t.created_at ≤ u.created_at) ∧
        ∃ u ∈ (take_pending_task s).2.tasks, u.id = r.id ∧
          u.status = Status.in_progress ∧ u.started_at = some s.now) := by
  obtain ⟨h1, h2, h3, h4⟩ := claimN_spec N s hnd
  have hlenM : (returnedIds (claimN N s).1).length = (pendingIds s).length := by
    rw [h3]
    exact Nat.min_eq_right (le_of_lt hN)
  have hperm : (returnedIds (claimN N s).1).Perm (pendingIds s) := by
    have hlen2 := h2.length_eq
    rw [List.length_append, hlenM] at hlen2
    have hpf : pendingIds (claimN N s).2 = [] := List.length_eq_zero.mp (by omega)
    rw [hpf, List.append_nil] at h2
    exact h2
  refine ⟨hperm, ?_, ?_, ?_⟩
  · have hpnd : (pendingIds s).Nodup := (pendingIdsOf_sublist s.tasks).nodup hnd
    exact hperm.symm.nodup hpnd
  · have hc := count_none_add (claimN N s).1
    rw [h4, hlenM] at hc
    omega
  · intro r hr
    unfold take_pending_task at hr ⊢
    cases ho : oldestPending s.tasks with
    | none => rw [ho] at hr; simp at hr
    | some t =>
        rw [ho] at hr
        have hrt : r = ⟨t.id, t.person_id, t.task_type⟩ := (Option.some.inj hr).symm
        subst hrt
        have hspec := (oldestPending_spec s.tasks).2 t ho
        have htmem : t ∈ s.tasks := (List.mem_filter.mp hspec.1).1
        have htp : t.status = Status.pending := by
          have := (List.mem_filter.mp hspec.1).2
          simpa [isPending] using this
        refine ⟨t, htmem, rfl, rfl, rfl, htp, ?_, ?_⟩
        · intro u hu hup2
          exact hspec.2 u (List.mem_filter.mpr ⟨hu, by simp [isPending, hup2]⟩)
        · refine ⟨{ t with status := Status.in_progress, started_at := some s.now },
            ?_, rfl, rfl, rfl⟩
          exact List.mem_map.mpr ⟨t, htmem, by rw [if_pos rfl]⟩

/-- Two pending rows with distinct ids for the C1 witness. -/
def c1State : DBState :=
  { persons := [],
    tasks := [{ id := 1, person_id := 7, task_type := "llm",
                status := Status.pending, created_at := 5 },
              { id := 2, person_id := 8, task_type := "llm",
                status := Status.pending, created_at := 3 }],
    next_id := 3, now := 10 }

/-- Witness for no_double_claim: three concurrent claims against two
pending rows. -/
theorem no_double_claim_witness :
    ((c1State.tasks.map Task.id).Nodup ∧ (pendingIds c1State).length < 3) ∧
    ((returnedIds (claimN 3 c1State).1).Perm (pendingIds c1State) ∧
    (returnedIds (claimN 3 c1State).1).Nodup ∧
    (claimN 3 c1State).1.count none = 3 - (pendingIds c1State).length ∧
    (∀ r, (take_pending_task c1State).1 = some r →
      ∃ t ∈ c1State.tasks, t.id = r.id ∧ t.person_id = r.person_id ∧
        t.task_type = r.task_type ∧ t.status = Status.pending ∧
        (∀ u ∈ c1State.tasks, u.status = Status.pending → t.created_at ≤ u.created_at) ∧
        ∃ u ∈ (take_pending_task c1State).2.tasks, u.id = r.id ∧
          u.status = Status.in_progress ∧ u.started_at = some c1State.now)) :=
  ⟨⟨by decide, by decide⟩, no_double_claim c1State 3 (by decide) (by decide)⟩

end PrmEnrich
